import Mathlib

/-!
Verification development for the telegram-ai-publisher scripts.

The definitions below are a shallow embedding of `src/bot_advanced.py`:
Python strings are `List Char` (a Python string is a sequence of code
points), the process-global credential state (`OPENAI_API_KEYS`,
`BLOCKED_KEYS`) is the explicit record `ApiSt`, and each HTTP POST to the
transformation endpoint consumes the next entry of an oracle list of
responses (`ApiSt.pending`).  Network sends to the destination channel are
modelled by oracle booleans, matching `send_to_telegram`, which catches
every exception and returns a boolean.
-/

set_option linter.unusedVariables false

namespace TgBot

/-- Character in the Arabic Unicode block; the source tests
`'؀' <= c <= 'ۿ'`. -/
def isArabicChar (c : Char) : Bool :=
  0x0600 ≤ c.toNat && c.toNat ≤ 0x06FF

/-- Character in the Cyrillic Unicode block; the source tests
`'Ѐ' <= c <= 'ӿ'`. -/
def isCyrillicChar (c : Char) : Bool :=
  0x0400 ≤ c.toNat && c.toNat ≤ 0x04FF

/-- Python `str.isalpha`, restricted to the character classes this program
distinguishes (ASCII letters plus the Arabic and Cyrillic blocks).  The
scripts only ever compare counts of these classes against each other, so
the restriction to the three scripts the code names is harmless. -/
def pyIsAlpha (c : Char) : Bool :=
  c.isAlpha || isArabicChar c || isCyrillicChar c

/-- The count `sum(1 for c in s if '؀' <= c <= 'ۿ')`. -/
def arabicCount (s : List Char) : Nat := s.countP isArabicChar

/-- The count `len([c for c in s if c.isalpha()])`. -/
def alphaCount (s : List Char) : Nat := s.countP pyIsAlpha

/-- Whitespace for the purposes of `str.strip()`. -/
def isSpaceChar (c : Char) : Bool :=
  c = ' ' || c = '\t' || c = '\n' || c = '\r'

/-- Python `s.strip()`. -/
def pyStrip (s : List Char) : List Char :=
  ((s.dropWhile isSpaceChar).reverse.dropWhile isSpaceChar).reverse

/-- Python `s.split(sep)` for a one-character separator (empty pieces are
kept, as in Python). -/
def splitOnChar (sep : Char) : List Char → List (List Char)
  | [] => [[]]
  | c :: cs =>
    let r := splitOnChar sep cs
    if c = sep then [] :: r
    else
      match r with
      | [] => [[c]]
      | h :: t => (c :: h) :: t

/-- Everything after the first `':'`, i.e. `s.split(':', 1)[1]` (and `[]`
when the line has no colon; the caller only uses it when one is there). -/
def afterFirstColon : List Char → List Char
  | [] => []
  | c :: cs => if c = ':' then cs else afterFirstColon cs

/-- Python `s.startswith(marker)`, first argument the marker. -/
def listStartsWith : List Char → List Char → Bool
  | [], _ => true
  | _ :: _, [] => false
  | p :: ps, c :: cs => p = c && listStartsWith ps cs

/-- Outcome of one `requests.post` to the OpenAI endpoint: a parsed 200
body, a non-200 status code, or a transport error / raised exception. -/
inductive Resp where
  | ok (body : List Char)
  | status (code : Nat)
  | exc
deriving DecidableEq, Repr

/-- The process state the scripts mutate around OpenAI calls: the
`BLOCKED_KEYS` set, the remaining oracle of HTTP responses, a counter of
HTTP calls issued, and a counter of how many times `BLOCKED_KEYS.clear()`
ran (for the reset-once invariant). -/
structure ApiSt where
  blocked : List String
  pending : List Resp
  calls : Nat
  resets : Nat
deriving DecidableEq, Repr

/-- Model of `get_next_available_key` (bot_advanced.py:89-99): filter out blocked
keys; if none is available, clear the blocked set and return the first
key of the pool. -/
def get_next_available_key (keys : List String) (st : ApiSt) : Option String × ApiSt :=
  match keys.filter (fun k => !(st.blocked.contains k)) with
  | [] => (keys.head?, { st with blocked := [], resets := st.resets + 1 })
  | k :: _ => (some k, st)

/-- Model of `mark_key_as_blocked` (bot_advanced.py:101-107): add the key to the
blocked set (Python guards on the key being truthy, i.e. non-empty). -/
def mark_key_as_blocked (k : String) (st : ApiSt) : ApiSt :=
  if k = "" then st
  else if st.blocked.contains k then st
  else { st with blocked := st.blocked ++ [k] }

/-- Issue one HTTP call: pop the next oracle response (an exhausted oracle
behaves like a transport error) and count the call. -/
def doCall (st : ApiSt) : Resp × ApiSt :=
  match st.pending with
  | [] => (Resp.exc, { st with calls := st.calls + 1 })
  | r :: rs => (r, { st with pending := rs, calls := st.calls + 1 })

/-- What one loop iteration of a transformer decides: return from the
function with a result, or fall to the next `attempt`. -/
inductive StepOut (α : Type) where
  | done (r : Option α)
  | retry
deriving DecidableEq, Repr

/-- The `for attempt in range(1, max_retries + 1)` shell shared by all
transformer functions: run one attempt; `retry` falls to the next
iteration, and running out of attempts returns `None`. -/
def apiLoop {α : Type} (step : ApiSt → StepOut α × ApiSt) : Nat → ApiSt → Option α × ApiSt
  | 0, st => (none, st)
  | fuel + 1, st =>
    match step st with
    | (StepOut.done r, st') => (r, st')
    | (StepOut.retry, st') => apiLoop step fuel st'

/-- The validation `translate_to_arabic` applies to a 200 body
(bot_advanced.py:174-180): at least one alphabetic character and an
Arabic ratio strictly above 0.5, i.e. `2 * arabic > total`. -/
def arabicRatioOverHalf (t : List Char) : Prop :=
  0 < alphaCount t ∧ alphaCount t < 2 * arabicCount t

instance : DecidablePred arabicRatioOverHalf := fun t => by
  unfold arabicRatioOverHalf; infer_instance

/-- The validation `generate_arabic_post` applies to a 200 body
(bot_advanced.py:401-408): Arabic ratio strictly above 0.6
(`5 * arabic > 3 * total`) and more than 300 characters. -/
def arabicPostValid (t : List Char) : Prop :=
  0 < alphaCount t ∧ 3 * alphaCount t < 5 * arabicCount t ∧ 300 < t.length

instance : DecidablePred arabicPostValid := fun t => by
  unfold arabicPostValid; infer_instance

/-- The validation `translate_to_english` applies to a 200 body
(bot_advanced.py:257-260): no Arabic characters and more than 20
characters. -/
def englishValid (t : List Char) : Prop :=
  arabicCount t = 0 ∧ 20 < t.length

instance : DecidablePred englishValid := fun t => by
  unfold englishValid; infer_instance

/-- One `attempt` of `translate_to_arabic` (bot_advanced.py:131-208):
select a key, issue the call; on 200 return the stripped body when it
passes the Arabic-ratio validation, otherwise fall to the next attempt;
on 429 block the key and, when the whole pool is now blocked, return
`None`, otherwise fall to the next attempt; any other status or a raised
exception falls to the next attempt. -/
def translateAttempt (keys : List String) (st : ApiSt) : StepOut (List Char) × ApiSt :=
  match get_next_available_key keys st with
  | (none, st1) => (StepOut.done none, st1)
  | (some key, st1) =>
    match doCall st1 with
    | (Resp.ok body, st2) =>
      if arabicRatioOverHalf (pyStrip body) then (StepOut.done (some (pyStrip body)), st2)
      else (StepOut.retry, st2)
    | (Resp.status code, st2) =>
      if code = 429 then
        if keys.length ≤ (mark_key_as_blocked key st2).blocked.length then
          (StepOut.done none, mark_key_as_blocked key st2)
        else (StepOut.retry, mark_key_as_blocked key st2)
      else (StepOut.retry, st2)
    | (Resp.exc, st2) => (StepOut.retry, st2)

/-- Function `translate_to_arabic` with its default budget `max_retries = 2`.  The
`text` argument only feeds the prompt, which the oracle answers. -/
def translate_to_arabic (keys : List String) (text : List Char) (st : ApiSt) :
    Option (List Char) × ApiSt :=
  apiLoop (translateAttempt keys) 2 st

/-- One `attempt` of `translate_to_english` (bot_advanced.py:214-285);
unlike `translate_to_arabic` there is no early return when the pool
becomes fully blocked. -/
def translateEnAttempt (keys : List String) (st : ApiSt) : StepOut (List Char) × ApiSt :=
  match get_next_available_key keys st with
  | (none, st1) => (StepOut.done none, st1)
  | (some key, st1) =>
    match doCall st1 with
    | (Resp.ok body, st2) =>
      if englishValid (pyStrip body) then (StepOut.done (some (pyStrip body)), st2)
      else (StepOut.retry, st2)
    | (Resp.status code, st2) =>
      if code = 429 then (StepOut.retry, mark_key_as_blocked key st2)
      else (StepOut.retry, st2)
    | (Resp.exc, st2) => (StepOut.retry, st2)

/-- Function `translate_to_english` with its default budget `max_retries = 2`. -/
def translate_to_english (keys : List String) (text : List Char) (st : ApiSt) :
    Option (List Char) × ApiSt :=
  apiLoop (translateEnAttempt keys) 2 st

/-- One `attempt` of `generate_arabic_post` (bot_advanced.py:341-433). -/
def genArabicAttempt (keys : List String) (st : ApiSt) : StepOut (List Char) × ApiSt :=
  match get_next_available_key keys st with
  | (none, st1) => (StepOut.done none, st1)
  | (some key, st1) =>
    match doCall st1 with
    | (Resp.ok body, st2) =>
      if arabicPostValid (pyStrip body) then (StepOut.done (some (pyStrip body)), st2)
      else (StepOut.retry, st2)
    | (Resp.status code, st2) =>
      if code = 429 then (StepOut.retry, mark_key_as_blocked key st2)
      else (StepOut.retry, st2)
    | (Resp.exc, st2) => (StepOut.retry, st2)

/-- Function `generate_arabic_post` with its default budget `max_retries = 3`. -/
def generate_arabic_post (keys : List String) (text : List Char) (st : ApiSt) :
    Option (List Char) × ApiSt :=
  apiLoop (genArabicAttempt keys) 3 st

/-- The line marker the thread parser looks for: `line.startswith('TWEET ')`. -/
def tweetMarker : List Char := "TWEET ".data

/-- The ellipsis appended to truncated tweets. -/
def dots : List Char := "...".data

/-- One line of the tweet-extraction loop of
`generate_english_twitter_thread` (bot_advanced.py:510-533): keep the part
after the first colon of a `TWEET `-prefixed line, reject it if it has any
Arabic character, truncate it to 277 characters plus `"..."` when longer
than 280, and keep it only when longer than 10 characters. -/
def parseLine (line0 : List Char) : Option (List Char) :=
  let line := pyStrip line0
  if listStartsWith tweetMarker line then
    if line.contains ':' then
      let content := pyStrip (afterFirstColon line)
      if 0 < arabicCount content then none
      else
        let content2 := if 280 < content.length then content.take 277 ++ dots else content
        if 10 < content2.length then some content2 else none
    else none
  else none

/-- The tweet list extracted from a 200 body: split on newlines and run
`parseLine` on each line. -/
def parseTweets (result : List Char) : List (List Char) :=
  (splitOnChar '\n' result).filterMap parseLine

/-- One `attempt` of `generate_english_twitter_thread`
(bot_advanced.py:436-591): on 200 parse the tweets; with at least 3
surviving tweets, return them unless the joined text still contains an
Arabic character (then fall to the next attempt); with fewer than 3
tweets fall to the next attempt; 429 blocks the key and falls through;
other statuses and exceptions fall through. -/
def threadAttempt (keys : List String) (st : ApiSt) : StepOut (List (List Char)) × ApiSt :=
  match get_next_available_key keys st with
  | (none, st1) => (StepOut.done none, st1)
  | (some key, st1) =>
    match doCall st1 with
    | (Resp.ok body, st2) =>
      if 3 ≤ (parseTweets (pyStrip body)).length then
        if 0 < arabicCount (List.intercalate [' '] (parseTweets (pyStrip body))) then
          (StepOut.retry, st2)
        else (StepOut.done (some (parseTweets (pyStrip body))), st2)
      else (StepOut.retry, st2)
    | (Resp.status code, st2) =>
      if code = 429 then (StepOut.retry, mark_key_as_blocked key st2)
      else (StepOut.retry, st2)
    | (Resp.exc, st2) => (StepOut.retry, st2)

/-- Function `generate_english_twitter_thread` with its default budget
`max_retries = 3`. -/
def generate_english_twitter_thread (keys : List String) (text : List Char) (st : ApiSt) :
    Option (List (List Char)) × ApiSt :=
  apiLoop (threadAttempt keys) 3 st

/-- The language tags `detect_language` can return. -/
inductive Lang where
  | unknown | arabic | russian | other
deriving DecidableEq, Repr

/-- Model of `detect_language` (bot_advanced.py:110-128).  Note the code counts
every non-Arabic alphabetic character (Cyrillic included) as `latin`, and
then adds the Cyrillic count again into the total; this is embedded
as written. -/
def detect_language (s : List Char) : Lang :=
  let arabicCh := s.countP isArabicChar
  let latinCh := s.countP (fun c => pyIsAlpha c && !isArabicChar c)
  let cyrCh := s.countP isCyrillicChar
  let total := arabicCh + latinCh + cyrCh
  if total = 0 then Lang.unknown
  else if total < 2 * arabicCh then Lang.arabic
  else if latinCh < cyrCh then Lang.russian
  else Lang.other

/-- A fetched Telegram message, reduced to the fields the scripts read:
the text body (None for media-only posts) and the media flags. -/
structure Msg where
  text : Option (List Char)
  hasPhoto : Bool
  hasVideo : Bool
deriving DecidableEq, Repr

/-- The sort key `len(m.text) if m.text else 0` (a falsy — missing or
empty — text counts as length 0, which is also the length of the empty
text, so only the `none` case needs a branch). -/
def msgLen (m : Msg) : Nat :=
  match m.text with
  | some t => t.length
  | none => 0

/-- The pool filter of `get_content_from_sources`
(bot_advanced.py:314-317): `msg.text and len(msg.text.strip()) >= minLen`
(a falsy text fails the conjunction). -/
def qualifies (minLen : Nat) (m : Msg) : Bool :=
  match m.text with
  | some t => !t.isEmpty && decide (minLen ≤ (pyStrip t).length)
  | none => false

/-- Descending-length order used by
`filtered_messages.sort(key=..., reverse=True)`. -/
def byLenDesc (a b : Msg) : Prop := msgLen b ≤ msgLen a

instance : DecidableRel byLenDesc := fun a b => by
  unfold byLenDesc; infer_instance

instance : IsTotal Msg byLenDesc :=
  ⟨fun a b => Nat.le_total (msgLen b) (msgLen a)⟩

instance : IsTrans Msg byLenDesc :=
  ⟨fun _ _ _ hab hbc => Nat.le_trans hbc hab⟩

/-- Model of `random.choice`, modelled by an index supplied by the environment:
every index selects an element, and every element is selected by some
index. -/
def pick {α : Type} (l : List α) (i : Nat) : Option α := l.get? (i % l.length)

/-- Model of `get_content_from_sources` (bot_advanced.py:303-338) from the pooled
message list on: filter by the threshold; when nothing qualifies,
re-filter once at half the threshold; when that also yields nothing,
return `None`; otherwise sort by descending text length and pick at
random from the top third (at least one candidate). -/
def get_content_from_sources (minLen : Nat) (allMessages : List Msg) (choice : Nat) :
    Option Msg :=
  if allMessages.isEmpty then none
  else
    let filtered0 := allMessages.filter (qualifies minLen)
    let filtered :=
      if filtered0.isEmpty then allMessages.filter (qualifies (minLen / 2)) else filtered0
    if filtered.isEmpty then none
    else
      let sorted := List.insertionSort byLenDesc filtered
      let top := sorted.take (max 1 (filtered.length / 3))
      pick top choice

/-- The fallback Arabic post built when the AI post is missing or shorter
than 100 characters (bot_advanced.py:724-728). -/
def arabicFallbackBig (t : List Char) : List Char :=
  "📢 ".data ++ t ++
    "\n\n💡 تابعنا للمزيد من المحتوى التقني القيم!\n\n#تقنية #تكنولوجيا #ابتكار #ذكاء_اصطناعي #AI #Tech #Innovation #TechNews".data

/-- The emergency Arabic post built when the AI post has fewer than 50
Arabic characters but the processed text still has some
(bot_advanced.py:736-740). -/
def arabicFallbackSmall (t : List Char) : List Char :=
  "📢 ".data ++ t ++ "\n\n💡 تابعنا للمزيد!\n\n#تقنية #AI #Tech".data

/-- The hook tweet of the translation-based fallback thread
(bot_advanced.py:785). -/
def hookTweet : List Char := "🧵 Tech news alert!".data

/-- The closing tweet of the translation-based fallback thread
(bot_advanced.py:787). -/
def ctaTweet : List Char := "Follow for more updates! #Tech #AI #Innovation".data

/-- The middle tweet of the translation-based fallback thread
(bot_advanced.py:786). -/
def trimTranslation (te : List Char) : List Char :=
  if te.length ≤ 270 then te.take 270 else te.take 267 ++ dots

/-- The hard-coded generic thread used when even the plain translation
fails (bot_advanced.py:792-797). -/
def genericThread : List (List Char) :=
  ["🧵 Breaking tech news!".data,
   "Exciting developments happening in the tech world today. This could reshape how we think about innovation.".data,
   "Major implications for the industry. Stay tuned for more details and analysis!".data,
   "Follow for daily tech insights! #Tech #AI #Innovation".data]

/-- Decimal digits of a number (fuel-structured so the kernel can
evaluate it). -/
def natDigitsAux : Nat → Nat → List Char → List Char
  | 0, _, acc => acc
  | fuel + 1, n, acc =>
    let d := Char.ofNat (48 + n % 10)
    if n < 10 then d :: acc else natDigitsAux fuel (n / 10) (d :: acc)

/-- Decimal rendering of a number, as `str(n)`. -/
def natChars (n : Nat) : List Char := natDigitsAux (n + 1) n []

/-- The separator `"=" * 60`. -/
def eqLine : List Char := List.replicate 60 '='

/-- The separator `"-" * 60`. -/
def dashLine : List Char := List.replicate 60 '-'

/-- One tweet block of `format_twitter_thread` (bot_advanced.py:602-607). -/
def formatOneTweet (n i : Nat) (tw : List Char) : List Char :=
  "📝 TWEET ".data ++ natChars i ++ "/".data ++ natChars n ++ " (".data ++
    natChars tw.length ++ " chars) ".data ++
    (if tw.length ≤ 280 then ("✅".data) else ("❌".data)) ++ "\n".data ++
    tw ++ "\n".data ++ dashLine ++ "\n\n".data

/-- The closing instructions of `format_twitter_thread`
(bot_advanced.py:609-612). -/
def twitterFooter : List Char :=
  "💡 How to Post:\n1. Copy Tweet 1 → Post on Twitter/X\n2. Reply with Tweet 2\n3. Continue replying to build the thread\n".data

/-- Model of `format_twitter_thread` (bot_advanced.py:594-614). -/
def format_twitter_thread (tweets : List (List Char)) : List Char :=
  if tweets.isEmpty then []
  else
    "🐦 TWITTER/X THREAD - Copy & Paste Each Tweet\n".data ++ eqLine ++ "\n\n".data ++
      (tweets.enum.map (fun p => formatOneTweet tweets.length (p.1 + 1) p.2)).flatten ++
      twitterFooter

/-- Everything `main` reads from the outside world: the pooled fetch
results, the random draw, the OpenAI response oracle, whether
`download_media` succeeds, the formatted timestamp, and the boolean
outcomes of the two `send_to_telegram` calls (which swallow their own
exceptions and return a boolean). -/
structure MainOracle where
  messages : List Msg
  choice : Nat
  resps : List Resp
  mediaOk : Bool
  ts : List Char
  sendAr : Bool
  sendEn : Bool
deriving DecidableEq, Repr

/-- Where the tweet list handed to the publisher came from. -/
inductive TwSrc where
  | notReached | generated | fromTranslation | generic
deriving DecidableEq, Repr

/-- Observable outcome of one `main` run: the boolean `main` returns, and
an event record — whether media was downloaded, how many times
`os.remove` ran on it, the publish attempts made (in order, with their
results), the tweet list at formatting time, and its provenance. -/
structure RunOut where
  success : Bool
  downloaded : Bool
  deletes : Nat
  publishes : List Bool
  tweets : List (List Char)
  tweetsSource : TwSrc
  finalSt : ApiSt
deriving DecidableEq, Repr

/-- Step 2 of `main` (bot_advanced.py:669-688): keep the original text
when it is detected as Arabic, otherwise translate it, falling back to
the original text when the translation fails. -/
def mainArabicText (keys : List String) (original : List Char) (st : ApiSt) :
    List Char × ApiSt :=
  if detect_language original ≠ Lang.arabic then
    match translate_to_arabic keys original st with
    | (some t, st') => (t, st')
    | (none, st') => (original, st')
  else (original, st)

/-- Step 3 of `main` (bot_advanced.py:705-744): generate the Arabic post;
when the AI result is missing or shorter than 100 characters, use the big
fallback template; when the post then has fewer than 50 Arabic characters,
use the small template when the processed text has any Arabic character,
and otherwise abort the run (`None` here models the `return False` at
bot_advanced.py:742-744). -/
def mainArabicPost (keys : List String) (arabicText : List Char) (st : ApiSt) :
    Option (List Char) × ApiSt :=
  match generate_arabic_post keys arabicText st with
  | (r, st') =>
    let p :=
      match r with
      | some p0 => if p0.length < 100 then arabicFallbackBig arabicText else p0
      | none => arabicFallbackBig arabicText
    if arabicCount p < 50 then
      if arabicText ≠ [] ∧ 0 < arabicCount arabicText then
        (some (arabicFallbackSmall arabicText), st')
      else (none, st')
    else (some p, st')

/-- Step 4 of `main` (bot_advanced.py:760-798): generate the Twitter
thread; on failure, try a plain English translation and wrap it in a
3-tweet thread; when that also fails, use the hard-coded 4-tweet
thread. -/
def mainTweets (keys : List String) (original : List Char) (st : ApiSt) :
    List (List Char) × TwSrc × ApiSt :=
  match generate_english_twitter_thread keys original st with
  | (some tws, st') => (tws, TwSrc.generated, st')
  | (none, st') =>
    match translate_to_english keys original st' with
    | (some te, st'') => ([hookTweet, trimTranslation te, ctaTweet], TwSrc.fromTranslation, st'')
    | (none, st'') => (genericThread, TwSrc.generic, st'')

/-- Step 5 of `main` (bot_advanced.py:810-881): final length gates (an
empty or short Arabic post or thread aborts before any publish), then the
two publish attempts, then the media cleanup, then the conjunction of the
two publish results. -/
def mainPublish (downloaded : Bool) (arabicFinal : List Char) (tweets : List (List Char))
    (src : TwSrc) (st : ApiSt) (o : MainOracle) : RunOut :=
  if arabicFinal.length < 50 then
    { success := false, downloaded := downloaded, deletes := 0, publishes := [],
      tweets := tweets, tweetsSource := src, finalSt := st }
  else if (format_twitter_thread tweets).length < 50 then
    { success := false, downloaded := downloaded, deletes := 0, publishes := [],
      tweets := tweets, tweetsSource := src, finalSt := st }
  else
    { success := o.sendAr && o.sendEn, downloaded := downloaded,
      deletes := if downloaded then 1 else 0,
      publishes := [o.sendAr, o.sendEn], tweets := tweets, tweetsSource := src, finalSt := st }

/-- Model of `main` (bot_advanced.py:634-891) on the non-exceptional executions,
split into its numbered stages: fetch and select a post; translate to
Arabic when the detected language is not Arabic; download media when the
post has any; generate the Arabic post with its two fallbacks, aborting
when no Arabic content exists at all; generate the Twitter thread with
its translation and hard-coded fallbacks; run the final length gates;
publish both messages; delete the media file; return the conjunction of
the two publish results. -/
def mainStage5 (keys : List String) (o : MainOracle) (post : Msg) (arabicPost : List Char) :
    List (List Char) × TwSrc × ApiSt → RunOut
  | (tweets, src, st4) =>
    mainPublish ((post.hasPhoto || post.hasVideo) && o.mediaOk) (arabicPost ++ o.ts)
      tweets src st4 o

/-- Steps 3-6 after the Arabic text is fixed: generate the Arabic post
(aborting the run when it yields none), then the thread, then publish. -/
def mainStage4 (keys : List String) (o : MainOracle) (post : Msg) :
    Option (List Char) × ApiSt → RunOut
  | (none, st2) =>
    { success := false, downloaded := (post.hasPhoto || post.hasVideo) && o.mediaOk,
      deletes := 0, publishes := [], tweets := [], tweetsSource := TwSrc.notReached,
      finalSt := st2 }
  | (some arabicPost, st2) =>
    mainStage5 keys o post arabicPost (mainTweets keys (pyStrip (post.text.getD [])) st2)

def mainStage3 (keys : List String) (o : MainOracle) (post : Msg) :
    List Char × ApiSt → RunOut
  | (arabicText, st1) => mainStage4 keys o post (mainArabicPost keys arabicText st1)

def mainRun (keys : List String) (minLen : Nat) (o : MainOracle) : RunOut :=
  match get_content_from_sources minLen o.messages o.choice with
  | none =>
    { success := false, downloaded := false, deletes := 0, publishes := [], tweets := [],
      tweetsSource := TwSrc.notReached,
      finalSt := { blocked := [], pending := o.resps, calls := 0, resets := 0 } }
  | some post =>
    mainStage3 keys o post (mainArabicText keys (pyStrip (post.text.getD []))
      { blocked := [], pending := o.resps, calls := 0, resets := 0 })

/-- The process exit code derived from `main`'s boolean result
(bot_advanced.py:916-924). -/
def exitCode (mainResult : Bool) : Nat := if mainResult then 0 else 1

/-! ## Helper lemmas about the key manager and the retry loop -/

theorem get_next_snd (keys : List String) (st : ApiSt) :
    ((get_next_available_key keys st).2).calls = st.calls ∧
    ((get_next_available_key keys st).2).pending = st.pending ∧
    ((get_next_available_key keys st).2).blocked.Sublist st.blocked := by
  unfold get_next_available_key
  split
  · exact ⟨rfl, rfl, List.nil_sublist _⟩
  · exact ⟨rfl, rfl, List.Sublist.refl _⟩

theorem get_next_some_of_ne (keys : List String) (st : ApiSt) (h : keys ≠ []) :
    ∃ k, (get_next_available_key keys st).1 = some k := by
  unfold get_next_available_key
  split
  · exact ⟨keys.head h, by simp [List.head?_eq_head h]⟩
  · exact ⟨_, rfl⟩

theorem doCall_spec (st : ApiSt) :
    ((doCall st).2).calls = st.calls + 1 ∧
    ((doCall st).2).pending.Sublist st.pending ∧
    ((doCall st).2).blocked = st.blocked ∧
    ∀ body, (doCall st).1 = Resp.ok body → st.pending = Resp.ok body :: ((doCall st).2).pending := by
  unfold doCall
  split
  next heq => exact ⟨rfl, by rw [heq], rfl, by intro body h; cases h⟩
  next r rs heq => exact ⟨rfl, by rw [heq]; exact (List.sublist_cons_self r rs), rfl, by
    intro body h; simp only at h; rw [heq, h]⟩

theorem mark_spec (k : String) (st : ApiSt) :
    (mark_key_as_blocked k st).calls = st.calls ∧
    (mark_key_as_blocked k st).pending = st.pending ∧
    (k ≠ "" → k ∈ (mark_key_as_blocked k st).blocked) := by
  unfold mark_key_as_blocked
  split
  next h => exact ⟨rfl, rfl, fun hk => absurd h hk⟩
  · split
    next h => exact ⟨rfl, rfl, fun _ => by simpa using h⟩
    · exact ⟨rfl, rfl, fun _ => by simp⟩

theorem translateAttempt_spec (keys : List String) (st : ApiSt) :
    ((translateAttempt keys st).2).calls ≤ st.calls + 1 ∧
    st.calls ≤ ((translateAttempt keys st).2).calls ∧
    ((translateAttempt keys st).2).pending.Sublist st.pending ∧
    ∀ x, (translateAttempt keys st).1 = StepOut.done (some x) →
      ∃ body, st.pending = Resp.ok body :: ((translateAttempt keys st).2).pending ∧
        x = pyStrip body ∧ arabicRatioOverHalf x := by
  unfold translateAttempt
  split
  next st1 hg =>
    obtain ⟨hc1, hp1, _⟩ := get_next_snd keys st
    rw [hg] at hc1 hp1
    simp only at hc1 hp1
    exact ⟨by simp; omega, by simp; omega, by simp [hp1], by intro x h; cases h⟩
  next key st1 hg =>
    obtain ⟨hc1, hp1, _⟩ := get_next_snd keys st
    rw [hg] at hc1 hp1
    simp only at hc1 hp1
    split
    next body st2 hd =>
      obtain ⟨hc2, hp2, _, hok⟩ := doCall_spec st1
      rw [hd] at hc2 hp2 hok
      simp only at hc2 hp2 hok
      split
      next hval =>
        refine ⟨by simp; omega, by simp; omega, by simpa using hp1 ▸ hp2, ?_⟩
        intro x h
        simp only [StepOut.done.injEq, Option.some.injEq] at h
        exact ⟨body, by rw [← hp1]; exact hok body rfl, h.symm, h ▸ hval⟩
      next hval =>
        exact ⟨by simp; omega, by simp; omega, by simpa using hp1 ▸ hp2, by intro x h; cases h⟩
    next code st2 hd =>
      obtain ⟨hc2, hp2, _, _⟩ := doCall_spec st1
      rw [hd] at hc2 hp2
      simp only at hc2 hp2
      obtain ⟨hcm, hpm, _⟩ := mark_spec key st2
      split
      next hcode =>
        split
        next hlen =>
          exact ⟨by simp [hcm]; omega, by simp [hcm]; omega,
            by simp only [hpm]; exact hp1 ▸ hp2, by intro x h; cases h⟩
        next hlen =>
          exact ⟨by simp [hcm]; omega, by simp [hcm]; omega,
            by simp only [hpm]; exact hp1 ▸ hp2, by intro x h; cases h⟩
      next hcode =>
        exact ⟨by simp; omega, by simp; omega, by simpa using hp1 ▸ hp2, by intro x h; cases h⟩
    next st2 hd =>
      obtain ⟨hc2, hp2, _, _⟩ := doCall_spec st1
      rw [hd] at hc2 hp2
      simp only at hc2 hp2
      exact ⟨by simp; omega, by simp; omega, by simpa using hp1 ▸ hp2, by intro x h; cases h⟩

theorem genArabicAttempt_calls (keys : List String) (st : ApiSt) :
    st.calls ≤ ((genArabicAttempt keys st).2).calls ∧
    ((genArabicAttempt keys st).2).calls ≤ st.calls + 1 ∧
    (keys ≠ [] → ((genArabicAttempt keys st).2).calls = st.calls + 1) := by
  unfold genArabicAttempt
  split
  next st1 hg =>
    obtain ⟨hc1, _, _⟩ := get_next_snd keys st
    rw [hg] at hc1; simp only at hc1
    refine ⟨by simp; omega, by simp; omega, ?_⟩
    intro hk
    obtain ⟨k, hksome⟩ := get_next_some_of_ne keys st hk
    rw [hg] at hksome; cases hksome
  next key st1 hg =>
    obtain ⟨hc1, _, _⟩ := get_next_snd keys st
    rw [hg] at hc1; simp only at hc1
    split
    next body st2 hd =>
      obtain ⟨hc2, _, _, _⟩ := doCall_spec st1
      rw [hd] at hc2; simp only at hc2
      split
      · exact ⟨by simp; omega, by simp; omega, fun _ => by simp; omega⟩
      · exact ⟨by simp; omega, by simp; omega, fun _ => by simp; omega⟩
    next code st2 hd =>
      obtain ⟨hc2, _, _, _⟩ := doCall_spec st1
      rw [hd] at hc2; simp only at hc2
      obtain ⟨hcm, _, _⟩ := mark_spec key st2
      split
      · exact ⟨by simp [hcm]; omega, by simp [hcm]; omega, fun _ => by simp [hcm]; omega⟩
      · exact ⟨by simp; omega, by simp; omega, fun _ => by simp; omega⟩
    next st2 hd =>
      obtain ⟨hc2, _, _, _⟩ := doCall_spec st1
      rw [hd] at hc2; simp only at hc2
      exact ⟨by simp; omega, by simp; omega, fun _ => by simp; omega⟩

theorem threadAttempt_spec (keys : List String) (st : ApiSt) :
    ((threadAttempt keys st).2).pending.Sublist st.pending ∧
    ∀ x, (threadAttempt keys st).1 = StepOut.done (some x) →
      ∃ body, st.pending = Resp.ok body :: ((threadAttempt keys st).2).pending ∧
        x = parseTweets (pyStrip body) ∧ 3 ≤ x.length := by
  unfold threadAttempt
  split
  next st1 hg =>
    obtain ⟨_, hp1, _⟩ := get_next_snd keys st
    rw [hg] at hp1; simp only at hp1
    exact ⟨by simp [hp1], by intro x h; cases h⟩
  next key st1 hg =>
    obtain ⟨_, hp1, _⟩ := get_next_snd keys st
    rw [hg] at hp1; simp only at hp1
    split
    next body st2 hd =>
      obtain ⟨_, hp2, _, hok⟩ := doCall_spec st1
      rw [hd] at hp2 hok
      simp only at hp2 hok
      split
      next hlen =>
        split
        next har =>
          exact ⟨by simpa using hp1 ▸ hp2, by intro x h; cases h⟩
        next har =>
          refine ⟨by simpa using hp1 ▸ hp2, ?_⟩
          intro x h
          simp only [StepOut.done.injEq, Option.some.injEq] at h
          exact ⟨body, by rw [← hp1]; exact hok body rfl, h.symm, h ▸ hlen⟩
      next hlen =>
        exact ⟨by simpa using hp1 ▸ hp2, by intro x h; cases h⟩
    next code st2 hd =>
      obtain ⟨_, hp2, _, _⟩ := doCall_spec st1
      rw [hd] at hp2; simp only at hp2
      obtain ⟨_, hpm, _⟩ := mark_spec key st2
      split
      · exact ⟨by simp only [hpm]; exact hp1 ▸ hp2, by intro x h; cases h⟩
      · exact ⟨by simpa using hp1 ▸ hp2, by intro x h; cases h⟩
    next st2 hd =>
      obtain ⟨_, hp2, _, _⟩ := doCall_spec st1
      rw [hd] at hp2; simp only at hp2
      exact ⟨by simpa using hp1 ▸ hp2, by intro x h; cases h⟩

/-! ## Generic facts about the retry loop -/

theorem apiLoop_calls_le {α : Type} (step : ApiSt → StepOut α × ApiSt)
    (h : ∀ st : ApiSt, ((step st).2).calls ≤ st.calls + 1) (fuel : Nat) :
    ∀ st : ApiSt, ((apiLoop step fuel st).2).calls ≤ st.calls + fuel := by
  induction fuel with
  | zero => intro st; simp [apiLoop]
  | succ n ih =>
    intro st
    unfold apiLoop
    split
    next r st' hs =>
      have h1 := h st; rw [hs] at h1; simp only at h1
      simp only; omega
    next st' hs =>
      have h1 := h st; rw [hs] at h1; simp only at h1
      have h2 := ih st'
      omega

theorem apiLoop_calls_ge {α : Type} (step : ApiSt → StepOut α × ApiSt)
    (h : ∀ st : ApiSt, st.calls ≤ ((step st).2).calls) (fuel : Nat) :
    ∀ st : ApiSt, st.calls ≤ ((apiLoop step fuel st).2).calls := by
  induction fuel with
  | zero => intro st; simp [apiLoop]
  | succ n ih =>
    intro st
    unfold apiLoop
    split
    next r st' hs =>
      have h1 := h st; rw [hs] at h1; simp only at h1
      simp only; omega
    next st' hs =>
      have h1 := h st; rw [hs] at h1; simp only at h1
      have h2 := ih st'
      omega

theorem apiLoop_some_inv {α : Type} (step : ApiSt → StepOut α × ApiSt) (Inv : ApiSt → Prop)
    (P : α → Prop)
    (hpres : ∀ st, Inv st → Inv ((step st).2))
    (hdone : ∀ st, Inv st → ∀ x, (step st).1 = StepOut.done (some x) → P x) (fuel : Nat) :
    ∀ st, Inv st → ∀ x, (apiLoop step fuel st).1 = some x → P x := by
  induction fuel with
  | zero => intro st _ x hx; simp [apiLoop] at hx
  | succ n ih =>
    intro st hInv x hx
    unfold apiLoop at hx
    split at hx
    next r st' hs =>
      simp only at hx
      exact hdone st hInv x (by rw [hs, hx])
    next st' hs =>
      have hi := hpres st hInv; rw [hs] at hi; simp only at hi
      exact ih st' hi x hx

theorem apiLoop_none {α : Type} (step : ApiSt → StepOut α × ApiSt) (Inv : ApiSt → Prop)
    (hpres : ∀ st, Inv st → Inv ((step st).2))
    (hnot : ∀ st, Inv st → ∀ x, (step st).1 ≠ StepOut.done (some x)) (fuel : Nat) :
    ∀ st, Inv st → (apiLoop step fuel st).1 = none := by
  induction fuel with
  | zero => intro st _; rfl
  | succ n ih =>
    intro st hInv
    unfold apiLoop
    split
    next r st' hs =>
      cases r with
      | none => rfl
      | some x => exact absurd (by rw [hs]) (hnot st hInv x)
    next st' hs =>
      have hi := hpres st hInv; rw [hs] at hi; simp only at hi
      exact ih st' hi

/-! ## Claims -/

/-- Claim C1, amended: whenever some credential of the pool is unblocked,
the selector leaves the state unchanged and returns an unblocked
credential of the pool — a blocked credential is never selected again
while an unblocked one exists; when every credential of the pool is
blocked, the selector clears the blocked set (counting exactly one reset
for the exhaustion) and returns the first credential.  The original
claim's "reset exactly once per run" does not hold: the reset happens
once per exhaustion, and a run can exhaust the pool repeatedly (see the
counterexample). -/
theorem claim1_key_rotation (keys : List String) (st : ApiSt) :
    ((∃ k, k ∈ keys ∧ k ∉ st.blocked) →
      (get_next_available_key keys st).2 = st ∧
      ∃ k, (get_next_available_key keys st).1 = some k ∧ k ∈ keys ∧ k ∉ st.blocked) ∧
    ((∀ k ∈ keys, k ∈ st.blocked) →
      (get_next_available_key keys st).1 = keys.head? ∧
      ((get_next_available_key keys st).2).blocked = [] ∧
      ((get_next_available_key keys st).2).resets = st.resets + 1) := by
  unfold get_next_available_key
  cases hf : keys.filter (fun k => !(st.blocked.contains k)) with
  | nil =>
    constructor
    · rintro ⟨k, hk, hnb⟩
      exfalso
      have hmem : k ∈ keys.filter (fun k => !(st.blocked.contains k)) := by
        rw [List.mem_filter]
        exact ⟨hk, by simp [hnb]⟩
      rw [hf] at hmem
      cases hmem
    · intro _
      exact ⟨rfl, rfl, rfl⟩
  | cons k ks =>
    have hk : k ∈ keys.filter (fun k => !(st.blocked.contains k)) := by
      rw [hf]; exact List.mem_cons_self k ks
    rw [List.mem_filter] at hk
    constructor
    · intro _
      exact ⟨rfl, k, rfl, hk.1, by simpa using hk.2⟩
    · intro hall
      exact absurd (hall k hk.1) (by simpa using hk.2)

/-- Witness for C1: with pool `["a", "b"]` and `"a"` blocked, the state is
unchanged and the unblocked `"b"` is selected; with both blocked, the
head `"a"` comes back and the reset counter moves from 0 to 1. -/
theorem claim1_key_rotation_witness :
    ((get_next_available_key ["a", "b"] ⟨["a"], [], 0, 0⟩).2 = ⟨["a"], [], 0, 0⟩ ∧
      ∃ k, (get_next_available_key ["a", "b"] ⟨["a"], [], 0, 0⟩).1 = some k ∧
        k ∈ ["a", "b"] ∧ k ∉ ["a"]) ∧
    (get_next_available_key ["a", "b"] ⟨["a", "b"], [], 0, 0⟩).1 = some ("a") ∧
    ((get_next_available_key ["a", "b"] ⟨["a", "b"], [], 0, 0⟩).2).blocked = [] ∧
    ((get_next_available_key ["a", "b"] ⟨["a", "b"], [], 0, 0⟩).2).resets = 1 := by
  have h1 := (claim1_key_rotation ["a", "b"] ⟨["a"], [], 0, 0⟩).1 (by decide)
  have h2 := (claim1_key_rotation ["a", "b"] ⟨["a", "b"], [], 0, 0⟩).2 (by decide)
  exact ⟨h1, h2.1.trans rfl, h2.2.1, h2.2.2⟩

/-- Counterexample to C1 as stated: a single-credential pool answered by
three straight HTTP 429s makes `generate_arabic_post` clear the blocked
set twice within one run (attempt 2 and attempt 3 each find the whole
pool blocked), so the blocked set is not reset "exactly once per run". -/
theorem claim1_reset_twice_counterexample :
    ((generate_arabic_post ["k"] "x".data
        ⟨[], [Resp.status 429, Resp.status 429, Resp.status 429], 0, 0⟩).2).resets = 2 := by
  decide

/-- Claim C3, amended: the transformer performs no input-length check at
all — for any input text, in particular one shorter than 50 characters,
`generate_arabic_post` issues at least one call to the transformation
endpoint (given the startup-validated non-empty key pool); short input is
neither rejected nor failed immediately. -/
theorem claim3_no_length_check (keys : List String) (text : List Char) (st : ApiSt)
    (hkeys : keys ≠ []) (hshort : text.length < 50) :
    st.calls + 1 ≤ ((generate_arabic_post keys text st).2).calls := by
  unfold generate_arabic_post
  show st.calls + 1 ≤ ((apiLoop (genArabicAttempt keys) (2 + 1) st).2).calls
  unfold apiLoop
  split
  next r st' hs =>
    have h1 := (genArabicAttempt_calls keys st).2.2 hkeys
    rw [hs] at h1; simp only at h1
    simp only; omega
  next st' hs =>
    have h1 := (genArabicAttempt_calls keys st).2.2 hkeys
    rw [hs] at h1; simp only at h1
    exact le_trans (by omega) (apiLoop_calls_ge (genArabicAttempt keys)
      (fun s => (genArabicAttempt_calls keys s).1) _ st')

/-- Witness for C3: a 2-character input together with a non-empty pool
still produces an HTTP call. -/
theorem claim3_no_length_check_witness :
    ("hi".data).length < 50 ∧
    0 + 1 ≤ ((generate_arabic_post ["k"] "hi".data ⟨[], [], 0, 0⟩).2).calls :=
  ⟨by decide, claim3_no_length_check ["k"] "hi".data ⟨[], [], 0, 0⟩ (by decide) (by decide)⟩

theorem doCall_cons (st : ApiSt) (r : Resp) (rest : List Resp) (h : st.pending = r :: rest) :
    doCall st = (r, { st with pending := rest, calls := st.calls + 1 }) := by
  unfold doCall
  rw [h]

/-- Claim C2, amended: only HTTP 429 triggers credential rotation — on a
429 the current credential is marked blocked and the loop falls to the
next attempt after a short fixed delay, but this consumes a
content-retry attempt (the `continue` advances the bounded `for attempt`
loop, so the total number of calls never exceeds the retry budget); HTTP
401 and 403 are handled by the generic error branch: the credential is
not blocked and the state is unchanged apart from the consumed
response. -/
theorem claim2_rate_limit_handling (keys : List String) (text : List Char) (st : ApiSt)
    (k : String) (st1 : ApiSt) (hk : k ≠ "")
    (hsel : get_next_available_key keys st = (some k, st1)) :
    (st1.pending.head? = some (Resp.status 429) →
        k ∈ ((translateAttempt keys st).2).blocked) ∧
    (∀ code, code = 401 ∨ code = 403 → st1.pending.head? = some (Resp.status code) →
        ((translateAttempt keys st).2).blocked = st1.blocked ∧
        (translateAttempt keys st).1 = StepOut.retry) ∧
    ((translate_to_arabic keys text st).2).calls ≤ st.calls + 2 := by
  refine ⟨?_, ?_, apiLoop_calls_le (translateAttempt keys)
    (fun s => (translateAttempt_spec keys s).1) 2 st⟩
  · intro h429
    cases hp : st1.pending with
    | nil => rw [hp] at h429; cases h429
    | cons r rest =>
      rw [hp] at h429
      simp only [List.head?] at h429
      injection h429 with h429
      subst h429
      have hd := doCall_cons st1 _ _ hp
      simp only [translateAttempt, hsel, hd]
      split
      next =>
        split
        · simpa using (mark_spec k _).2.2 hk
        · simpa using (mark_spec k _).2.2 hk
      next hne => exact absurd trivial hne
  · intro code hcode hhead
    cases hp : st1.pending with
    | nil => rw [hp] at hhead; cases hhead
    | cons r rest =>
      rw [hp] at hhead
      simp only [List.head?] at hhead
      injection hhead with hhead
      subst hhead
      have hd := doCall_cons st1 _ _ hp
      have hne : ¬ code = 429 := by rcases hcode with h | h <;> omega
      simp only [translateAttempt, hsel, hd, if_neg hne]
      constructor <;> simp

/-- Witness for C2: a 429 response blocks the selected key `"k1"`; a 401
response leaves the blocked set empty and merely falls to the next
attempt; two 429 responses exhaust the whole budget of 2 calls. -/
theorem claim2_rate_limit_handling_witness :
    "k1" ∈ ((translateAttempt ["k1", "k2"] ⟨[], [Resp.status 429], 0, 0⟩).2).blocked ∧
    (((translateAttempt ["k1", "k2"] ⟨[], [Resp.status 401], 0, 0⟩).2).blocked = [] ∧
      (translateAttempt ["k1", "k2"] ⟨[], [Resp.status 401], 0, 0⟩).1 = StepOut.retry) ∧
    ((translate_to_arabic ["k1", "k2"] []
        ⟨[], [Resp.status 429, Resp.status 429], 0, 0⟩).2).calls ≤ 0 + 2 := by
  have h1 := claim2_rate_limit_handling ["k1", "k2"] [] ⟨[], [Resp.status 429], 0, 0⟩
    "k1" ⟨[], [Resp.status 429], 0, 0⟩ (by decide) (by decide)
  have h2 := claim2_rate_limit_handling ["k1", "k2"] [] ⟨[], [Resp.status 401], 0, 0⟩
    "k1" ⟨[], [Resp.status 401], 0, 0⟩ (by decide) (by decide)
  have h3 := claim2_rate_limit_handling ["k1", "k2"] []
    ⟨[], [Resp.status 429, Resp.status 429], 0, 0⟩
    "k1" ⟨[], [Resp.status 429, Resp.status 429], 0, 0⟩ (by decide) (by decide)
  exact ⟨h1.1 rfl, h2.2.1 401 (Or.inl rfl) rfl, h3.2.2⟩

/-- Counterexample to C2 as stated: two 401 responses leave the blocked
set empty (the claim says a 401 marks the credential blocked), and with
`max_retries = 2` two 429 responses use up the entire budget — the valid
response waiting third in the oracle is never requested and the call
fails, refuting "retried … without consuming a content-retry
attempt". -/
theorem claim2_auth_error_counterexample :
    ((translate_to_arabic ["k1", "k2"] []
        ⟨[], [Resp.status 401, Resp.status 401], 0, 0⟩).2).blocked = [] ∧
    (translate_to_arabic ["k1", "k2"] []
        ⟨[], [Resp.status 401, Resp.status 401], 0, 0⟩).1 = none ∧
    ((translate_to_arabic ["k1", "k2"] []
        ⟨[], [Resp.status 429, Resp.status 429, Resp.ok (List.replicate 30 'م')], 0, 0⟩).2).calls = 2 ∧
    (translate_to_arabic ["k1", "k2"] []
        ⟨[], [Resp.status 429, Resp.status 429, Resp.ok (List.replicate 30 'م')], 0, 0⟩).1 = none := by
  refine ⟨by decide, by decide, by decide, by decide⟩

/-- Claim C4: a language-targeted transformer call never returns output
that fails the Arabic-ratio validation; when every 200 response the
oracle can serve fails the validation, the call retries within its budget
and returns `None`; the number of calls never exceeds the configured
budget of 2. -/
theorem claim4_language_ratio_validation (keys : List String) (text : List Char) (st : ApiSt) :
    (∀ s, (translate_to_arabic keys text st).1 = some s → arabicRatioOverHalf s) ∧
    ((∀ body, Resp.ok body ∈ st.pending → ¬ arabicRatioOverHalf (pyStrip body)) →
        (translate_to_arabic keys text st).1 = none) ∧
    ((translate_to_arabic keys text st).2).calls ≤ st.calls + 2 := by
  refine ⟨?_, ?_, apiLoop_calls_le (translateAttempt keys)
    (fun s => (translateAttempt_spec keys s).1) 2 st⟩
  · intro s hs
    exact apiLoop_some_inv (translateAttempt keys) (fun _ => True) arabicRatioOverHalf
      (fun _ _ => trivial)
      (fun st' _ x hx => by
        obtain ⟨body, _, hxeq, hval⟩ := (translateAttempt_spec keys st').2.2.2 x hx
        exact hval) 2 st trivial s hs
  · intro hbad
    exact apiLoop_none (translateAttempt keys)
      (fun s => ∀ body, Resp.ok body ∈ s.pending → ¬ arabicRatioOverHalf (pyStrip body))
      (fun s hI body hmem => hI body (((translateAttempt_spec keys s).2.2.1).subset hmem))
      (fun s hI x hx => by
        obtain ⟨body, hpend, hxeq, hval⟩ := (translateAttempt_spec keys s).2.2.2 x hx
        exact absurd (hxeq ▸ hval)
          (hI body (by rw [hpend]; exact List.mem_cons_self _ _)))
      2 st hbad

/-- Witness for C4: a purely Latin 200 body fails the ratio validation on
both attempts, so the call returns `None` within its budget of 2. -/
theorem claim4_language_ratio_validation_witness :
    (∀ body, Resp.ok body ∈ [Resp.ok ("hello world response text".data)] →
        ¬ arabicRatioOverHalf (pyStrip body)) ∧
    (translate_to_arabic ["k"] []
      ⟨[], [Resp.ok ("hello world response text".data)], 0, 0⟩).1 = none ∧
    ((translate_to_arabic ["k"] []
      ⟨[], [Resp.ok ("hello world response text".data)], 0, 0⟩).2).calls ≤ 0 + 2 := by
  have hyp : ∀ body, Resp.ok body ∈ [Resp.ok ("hello world response text".data)] →
      ¬ arabicRatioOverHalf (pyStrip body) := by
    intro body hmem
    rw [List.mem_singleton] at hmem
    injection hmem with hb
    subst hb
    decide
  refine ⟨hyp,
    (claim4_language_ratio_validation ["k"] []
      ⟨[], [Resp.ok ("hello world response text".data)], 0, 0⟩).2.1 hyp,
    (claim4_language_ratio_validation ["k"] []
      ⟨[], [Resp.ok ("hello world response text".data)], 0, 0⟩).2.2⟩

theorem parseLine_spec (line : List Char) (t : List Char) (h : parseLine line = some t) :
    t.length ≤ 280 ∧ arabicCount t = 0 ∧ 10 < t.length := by
  simp only [parseLine] at h
  split at h
  · split at h
    · split at h
      · cases h
      next har =>
        rw [Nat.not_lt, Nat.le_zero] at har
        split at h
        next hlong =>
          split at h
          next hten =>
            injection h with h
            subst h
            refine ⟨?_, ?_, ?_⟩
            · simp [List.length_append, List.length_take, dots]
            · have h1 : arabicCount ((pyStrip (afterFirstColon (pyStrip line))).take 277) = 0 := by
                have hsub := (List.take_sublist 277
                  (pyStrip (afterFirstColon (pyStrip line)))).countP_le isArabicChar
                unfold arabicCount at har ⊢
                omega
              have h2 : arabicCount dots = 0 := by decide
              unfold arabicCount at h1 h2 ⊢
              rw [List.countP_append]
              omega
            · simpa using hten
          · cases h
        next hlong =>
          split at h
          next hten =>
            injection h with h
            subst h
            exact ⟨by omega, har, hten⟩
          · cases h
    · cases h
  · cases h

theorem parseTweets_mem (s t : List Char) (h : t ∈ parseTweets s) :
    ∃ line, parseLine line = some t := by
  unfold parseTweets at h
  obtain ⟨line, _, hline⟩ := List.mem_filterMap.mp h
  exact ⟨line, hline⟩

theorem thread_some_spec (keys : List String) (text : List Char) (st : ApiSt)
    (tws : List (List Char)) (h : (generate_english_twitter_thread keys text st).1 = some tws) :
    3 ≤ tws.length ∧
    (∀ t ∈ tws, t.length ≤ 280 ∧ arabicCount t = 0 ∧ 10 < t.length) ∧
    ∃ body, Resp.ok body ∈ st.pending ∧ tws = parseTweets (pyStrip body) := by
  refine apiLoop_some_inv (threadAttempt keys) (fun s => s.pending.Sublist st.pending)
    (fun x => 3 ≤ x.length ∧
      (∀ t ∈ x, t.length ≤ 280 ∧ arabicCount t = 0 ∧ 10 < t.length) ∧
      ∃ body, Resp.ok body ∈ st.pending ∧ x = parseTweets (pyStrip body))
    (fun s hI => ((threadAttempt_spec keys s).1).trans hI)
    (fun s hI x hx => ?_) 3 st (List.Sublist.refl _) tws h
  obtain ⟨body, hpend, hxeq, hlen⟩ := (threadAttempt_spec keys s).2 x hx
  refine ⟨hlen, ?_, body, hI.subset (by rw [hpend]; exact List.mem_cons_self _ _), hxeq⟩
  intro t ht
  obtain ⟨line, hline⟩ := parseTweets_mem _ t (hxeq ▸ ht)
  exact parseLine_spec line t hline

/-- Claim C5: whenever the thread transformer returns a thread, it has at
least 3 segments, every segment was extracted by the `TWEET ` line-prefix
marker (the thread is exactly the parse of one 200 body of the oracle),
every segment passes the no-Arabic per-script validation and the
280-character cap; an extracted segment longer than the cap is returned
truncated to 277 characters plus the `"..."` ellipsis; and when every 200
body the oracle can serve parses to fewer than 3 surviving segments, the
call exhausts its retries and returns `None`. -/
theorem claim5_thread_segmentation (keys : List String) (text : List Char) (st : ApiSt) :
    (∀ tws, (generate_english_twitter_thread keys text st).1 = some tws →
        3 ≤ tws.length ∧
        (∀ t ∈ tws, t.length ≤ 280 ∧ arabicCount t = 0 ∧ 10 < t.length) ∧
        ∃ body, Resp.ok body ∈ st.pending ∧ tws = parseTweets (pyStrip body)) ∧
    (∀ line, listStartsWith tweetMarker (pyStrip line) = true →
        (pyStrip line).contains ':' = true →
        arabicCount (pyStrip (afterFirstColon (pyStrip line))) = 0 →
        280 < (pyStrip (afterFirstColon (pyStrip line))).length →
        parseLine line = some ((pyStrip (afterFirstColon (pyStrip line))).take 277 ++ dots)) ∧
    ((∀ body, Resp.ok body ∈ st.pending → (parseTweets (pyStrip body)).length < 3) →
        (generate_english_twitter_thread keys text st).1 = none) := by
  refine ⟨fun tws h => thread_some_spec keys text st tws h, ?_, ?_⟩
  · intro line hstart hcontains harabic hlen
    simp only [parseLine, hstart, hcontains, harabic, if_true, Nat.lt_irrefl, if_false]
    rw [if_pos hlen, if_pos (by simp [dots, List.length_append, List.length_take]; omega)]
  · intro hbad
    exact apiLoop_none (threadAttempt keys)
      (fun s => ∀ body, Resp.ok body ∈ s.pending → (parseTweets (pyStrip body)).length < 3)
      (fun s hI body hmem => hI body (((threadAttempt_spec keys s).1).subset hmem))
      (fun s hI x hx => by
        obtain ⟨body, hpend, hxeq, hlen⟩ := (threadAttempt_spec keys s).2 x hx
        have := hI body (by rw [hpend]; exact List.mem_cons_self _ _)
        rw [← hxeq] at this
        omega)
      3 st hbad

set_option maxRecDepth 8192 in
/-- Witness for C5: a `TWEET `-marked line whose content is 300
characters long comes back truncated to 277 characters plus the
ellipsis, and an oracle whose only 200 body parses to a single surviving
tweet makes the thread call return `None`. -/
theorem claim5_thread_segmentation_witness :
    parseLine ("TWEET 1: ".data ++ List.replicate 300 'a') =
      some ((pyStrip (afterFirstColon
        (pyStrip ("TWEET 1: ".data ++ List.replicate 300 'a')))).take 277 ++ dots) ∧
    (generate_english_twitter_thread ["k"] []
      ⟨[], [Resp.ok ("TWEET 1: a single long tweet line for the test".data)], 0, 0⟩).1 = none := by
  constructor
  · exact (claim5_thread_segmentation ["k"] [] ⟨[], [], 0, 0⟩).2.1
      ("TWEET 1: ".data ++ List.replicate 300 'a') (by decide) (by decide) (by decide) (by decide)
  · refine (claim5_thread_segmentation ["k"] []
      ⟨[], [Resp.ok ("TWEET 1: a single long tweet line for the test".data)], 0, 0⟩).2.2 ?_
    intro body hmem
    simp only [List.mem_singleton] at hmem
    injection hmem with hb
    subst hb
    decide

theorem pick_isSome {α : Type} (l : List α) (i : Nat) (h : l ≠ []) : ∃ x, pick l i = some x := by
  unfold pick
  have hl : 0 < l.length := List.length_pos.mpr h
  have hm : i % l.length < l.length := Nat.mod_lt i hl
  exact ⟨l.get ⟨_, hm⟩, List.get?_eq_get hm⟩

theorem pick_mem {α : Type} (l : List α) (i : Nat) (x : α) (h : pick l i = some x) : x ∈ l := by
  unfold pick at h
  exact List.get?_mem h

/-- Claim C6: when no pooled message meets the threshold, the reader
re-filters exactly once at half the threshold: it returns `None` exactly
when the relaxed filter is also empty, and any returned message belongs
to the relaxed filter. -/
theorem claim6_threshold_relaxation (minLen : Nat) (allMessages : List Msg) (choice : Nat)
    (h : ∀ m ∈ allMessages, qualifies minLen m = false) :
    (get_content_from_sources minLen allMessages choice = none ↔
      allMessages.filter (qualifies (minLen / 2)) = []) ∧
    ∀ m, get_content_from_sources minLen allMessages choice = some m →
      m ∈ allMessages.filter (qualifies (minLen / 2)) := by
  have hfil0 : allMessages.filter (qualifies minLen) = [] := by
    rw [List.filter_eq_nil_iff]
    intro a ha
    simp [h a ha]
  simp only [get_content_from_sources, hfil0, List.isEmpty_nil, if_true]
  by_cases hA : allMessages.isEmpty
  · have hAnil : allMessages = [] := List.isEmpty_iff.mp hA
    subst hAnil
    simp
  · rw [if_neg (by simp [hA])]
    by_cases hR : (allMessages.filter (qualifies (minLen / 2))).isEmpty
    · rw [if_pos (by simp [hR])]
      refine ⟨by simp [List.isEmpty_iff.mp hR], ?_⟩
      intro m hm
      cases hm
    · rw [if_neg (by simp [hR])]
      have hne : allMessages.filter (qualifies (minLen / 2)) ≠ [] := by
        simpa [List.isEmpty_iff] using hR
      obtain ⟨x, hx⟩ := pick_isSome
        ((List.insertionSort byLenDesc (allMessages.filter (qualifies (minLen / 2)))).take
          (max 1 ((allMessages.filter (qualifies (minLen / 2))).length / 3))) choice
        (by
          intro hcon
          have hlen := congrArg List.length hcon
          simp [List.length_take, List.length_insertionSort] at hlen
          refine hne ?_
          rw [List.filter_eq_nil_iff]
          intro a ha
          simp [hlen a ha])
      rw [hx]
      constructor
      · constructor
        · intro hcon
          cases hcon
        · intro hcon
          exact absurd hcon hne
      intro m hm
      injection hm with hm
      subst hm
      have h1 : x ∈ (List.insertionSort byLenDesc
          (allMessages.filter (qualifies (minLen / 2)))).take
          (max 1 ((allMessages.filter (qualifies (minLen / 2))).length / 3)) :=
        pick_mem _ choice x hx
      have h2 := (List.take_sublist _ _).subset h1
      exact (List.mem_insertionSort byLenDesc).mp h2

/-- Witness for C6: with threshold 100 no message of the 60-character
pool qualifies, the relaxed filter at threshold 50 is non-empty, and the
reader returns a message of the relaxed pool. -/
theorem claim6_threshold_relaxation_witness :
    ¬ (get_content_from_sources 100 [⟨some (List.replicate 60 'a'), false, false⟩] 0 = none) ∧
    ∀ m, get_content_from_sources 100 [⟨some (List.replicate 60 'a'), false, false⟩] 0 = some m →
      m ∈ [Msg.mk (some (List.replicate 60 'a')) false false].filter (qualifies (100 / 2)) := by
  have h := claim6_threshold_relaxation 100 [⟨some (List.replicate 60 'a'), false, false⟩] 0
    (by decide)
  exact ⟨fun hcon => by have := h.1.mp hcon; revert this; decide, h.2⟩

/-- Claim C7: with a non-empty filtered pool, the reader selects from
exactly the top third (never fewer than one element) of the pool sorted
by descending text length: the result is always in that slice, every
index of the slice is selected by some random draw, and every slice
element is at least as long as everything below the slice. -/
theorem claim7_top_third_selection (minLen : Nat) (allMessages : List Msg) (choice : Nat)
    (filtered sorted top : List Msg) (k : Nat)
    (hfil : filtered = allMessages.filter (qualifies minLen))
    (hne : filtered ≠ [])
    (hsort : sorted = List.insertionSort byLenDesc filtered)
    (hk : k = max 1 (filtered.length / 3))
    (htop : top = sorted.take k) :
    top ≠ [] ∧
    (∃ m, get_content_from_sources minLen allMessages choice = some m ∧ m ∈ top) ∧
    (∀ i, i < top.length → get_content_from_sources minLen allMessages i = top.get? i) ∧
    (∀ a ∈ top, ∀ b ∈ sorted.drop k, msgLen b ≤ msgLen a) := by
  subst htop hk hsort hfil
  have hAne : allMessages ≠ [] := by
    intro hA
    subst hA
    simp at hne
  have hsortlen : (List.insertionSort byLenDesc (allMessages.filter (qualifies minLen))).length =
      (allMessages.filter (qualifies minLen)).length :=
    List.length_insertionSort _ _
  have htopne : (List.insertionSort byLenDesc (allMessages.filter (qualifies minLen))).take
      (max 1 ((allMessages.filter (qualifies minLen)).length / 3)) ≠ [] := by
    intro hcon
    have hlen := congrArg List.length hcon
    simp [List.length_take, hsortlen] at hlen
    refine hne ?_
    rw [List.filter_eq_nil_iff]
    intro a ha
    simp [hlen a ha]
  have hred : ∀ c, get_content_from_sources minLen allMessages c =
      pick ((List.insertionSort byLenDesc (allMessages.filter (qualifies minLen))).take
        (max 1 ((allMessages.filter (qualifies minLen)).length / 3))) c := by
    intro c
    simp only [get_content_from_sources]
    rw [if_neg (by simp [List.isEmpty_iff, hAne]),
      if_neg (by simp [List.isEmpty_iff, hne]), if_neg (by simp [List.isEmpty_iff, hne])]
  have hsorted : List.Sorted byLenDesc
      (List.insertionSort byLenDesc (allMessages.filter (qualifies minLen))) :=
    List.sorted_insertionSort byLenDesc _
  refine ⟨htopne, ?_, ?_, ?_⟩
  · obtain ⟨x, hx⟩ := pick_isSome _ choice htopne
    exact ⟨x, (hred choice).trans hx, pick_mem _ choice x hx⟩
  · intro i hi
    rw [hred i]
    unfold pick
    rw [Nat.mod_eq_of_lt hi]
  · intro a ha b hb
    have hsplit := List.take_append_drop
      (max 1 ((allMessages.filter (qualifies minLen)).length / 3))
      (List.insertionSort byLenDesc (allMessages.filter (qualifies minLen)))
    rw [← hsplit] at hsorted
    exact (List.pairwise_append.mp hsorted).2.2 a ha b hb

/-- The pool used by the witness of C7: three qualifying messages of
lengths 12, 11 and 10. -/
def w7msgs : List Msg :=
  [⟨some (List.replicate 10 'a'), false, false⟩,
   ⟨some (List.replicate 12 'b'), false, false⟩,
   ⟨some (List.replicate 11 'c'), false, false⟩]

/-- Witness for C7: on a pool of three qualifying messages the top third
has exactly one element and the reader returns a member of it. -/
theorem claim7_top_third_selection_witness :
    ∃ m, get_content_from_sources 5 w7msgs 0 = some m ∧
      m ∈ (List.insertionSort byLenDesc (w7msgs.filter (qualifies 5))).take
        (max 1 ((w7msgs.filter (qualifies 5)).length / 3)) :=
  (claim7_top_third_selection 5 w7msgs 0 _ _ _ _ rfl (by decide) rfl rfl rfl).2.1

theorem mainPublish_spec (downloaded : Bool) (arabicFinal : List Char)
    (tweets : List (List Char)) (src : TwSrc) (st : ApiSt) (o : MainOracle) :
    (mainPublish downloaded arabicFinal tweets src st o).tweets = tweets ∧
    (mainPublish downloaded arabicFinal tweets src st o).tweetsSource = src ∧
    (mainPublish downloaded arabicFinal tweets src st o).downloaded = downloaded ∧
    ((mainPublish downloaded arabicFinal tweets src st o).publishes = [] ∨
      ((mainPublish downloaded arabicFinal tweets src st o).publishes = [o.sendAr, o.sendEn] ∧
       (mainPublish downloaded arabicFinal tweets src st o).success = (o.sendAr && o.sendEn) ∧
       (mainPublish downloaded arabicFinal tweets src st o).deletes =
         (if downloaded then 1 else 0))) := by
  unfold mainPublish
  split
  · exact ⟨rfl, rfl, rfl, Or.inl rfl⟩
  · split
    · exact ⟨rfl, rfl, rfl, Or.inl rfl⟩
    · exact ⟨rfl, rfl, rfl, Or.inr ⟨rfl, rfl, rfl⟩⟩

theorem mainTweets_spec (keys : List String) (original : List Char) (st : ApiSt) :
    3 ≤ (mainTweets keys original st).1.length ∧
    (mainTweets keys original st).2.1 ≠ TwSrc.notReached ∧
    ((mainTweets keys original st).2.1 = TwSrc.generic →
      (mainTweets keys original st).1 = genericThread) ∧
    ((mainTweets keys original st).2.1 = TwSrc.fromTranslation →
      (mainTweets keys original st).1.length = 3) := by
  unfold mainTweets
  split
  next tws st' hgen =>
    have h3 : 3 ≤ tws.length :=
      (thread_some_spec keys original st tws (by rw [hgen])).1
    exact ⟨h3, by simp, fun hcon => by simp at hcon, fun hcon => by simp at hcon⟩
  next st' hgen =>
    split
    · exact ⟨by simp, by simp, fun hcon => by simp at hcon, fun _ => rfl⟩
    · exact ⟨by simp [genericThread], by simp, fun _ => rfl, fun hcon => by simp at hcon⟩

/-- The disjunction every `main` run satisfies: either the run aborted
before any publish attempt, or both publish attempts ran, `main`'s result
is their conjunction, the downloaded media file was removed exactly once,
and the published thread is a non-trivial tweet list of known
provenance. -/
def GoodOut (o : MainOracle) (out : RunOut) : Prop :=
  out.publishes = [] ∨
  (out.publishes = [o.sendAr, o.sendEn] ∧
   out.success = (o.sendAr && o.sendEn) ∧
   out.deletes = (if out.downloaded then 1 else 0) ∧
   3 ≤ out.tweets.length ∧
   out.tweetsSource ≠ TwSrc.notReached ∧
   (out.tweetsSource = TwSrc.generic → out.tweets = genericThread) ∧
   (out.tweetsSource = TwSrc.fromTranslation → out.tweets.length = 3))

theorem mainStage5_good (keys : List String) (o : MainOracle) (post : Msg)
    (arabicPost : List Char) (tweets : List (List Char)) (src : TwSrc) (st4 : ApiSt)
    (h3 : 3 ≤ tweets.length) (hnr : src ≠ TwSrc.notReached)
    (hgen : src = TwSrc.generic → tweets = genericThread)
    (htr : src = TwSrc.fromTranslation → tweets.length = 3) :
    GoodOut o (mainStage5 keys o post arabicPost (tweets, src, st4)) := by
  obtain ⟨ht, hsrc, hdl, hpub⟩ :=
    mainPublish_spec ((post.hasPhoto || post.hasVideo) && o.mediaOk)
      (arabicPost ++ o.ts) tweets src st4 o
  show GoodOut o (mainPublish ((post.hasPhoto || post.hasVideo) && o.mediaOk)
    (arabicPost ++ o.ts) tweets src st4 o)
  rcases hpub with hl | hr
  · exact Or.inl hl
  · refine Or.inr ⟨hr.1, hr.2.1, ?_, ?_, ?_, ?_, ?_⟩
    · rw [hr.2.2, hdl]
    · rw [ht]; exact h3
    · rw [hsrc]; exact hnr
    · rw [hsrc, ht]; exact hgen
    · rw [hsrc, ht]; exact htr

theorem mainStage4_good (keys : List String) (o : MainOracle) (post : Msg) :
    ∀ p, GoodOut o (mainStage4 keys o post p)
  | (none, st2) => Or.inl rfl
  | (some arabicPost, st2) => by
    obtain ⟨h3, hnr, hgen, htr⟩ := mainTweets_spec keys (pyStrip (post.text.getD [])) st2
    exact mainStage5_good keys o post arabicPost
      (mainTweets keys (pyStrip (post.text.getD [])) st2).1
      (mainTweets keys (pyStrip (post.text.getD [])) st2).2.1
      (mainTweets keys (pyStrip (post.text.getD [])) st2).2.2 h3 hnr hgen htr

theorem mainStage3_good (keys : List String) (o : MainOracle) (post : Msg) :
    ∀ p, GoodOut o (mainStage3 keys o post p)
  | (arabicText, st1) => mainStage4_good keys o post (mainArabicPost keys arabicText st1)

theorem mainRun_cases (keys : List String) (minLen : Nat) (o : MainOracle) :
    GoodOut o (mainRun keys minLen o) := by
  unfold mainRun
  split
  next => exact Or.inl rfl
  next post hpost => exact mainStage3_good keys o post _

/-- Claim C8, amended: the process exits 0 exactly when every destination
publish succeeded — a partial success (one of the two publishes failing)
exits 1, not 0; exit 1 also covers total failure and the aborts before
the publish stage.  The original claim's "exit 0 on any-target success"
does not hold for this script (the spec itself flags the variants as
inconsistent here): `main` returns the conjunction of the per-target
results. -/
theorem claim8_exit_codes (keys : List String) (minLen : Nat) (o : MainOracle) (a e : Bool)
    (h : (mainRun keys minLen o).publishes = [a, e]) :
    (exitCode (mainRun keys minLen o).success = 0 ↔ a = true ∧ e = true) := by
  have hc := mainRun_cases keys minLen o
  unfold GoodOut at hc
  rcases hc with hl | hr
  · rw [hl] at h
    cases h
  · rw [hr.1] at h
    injection h with h1 h2
    injection h2 with h2 _
    subst h1
    subst h2
    rw [hr.2.1]
    cases o.sendAr <;> cases o.sendEn <;> simp [exitCode]

/-- The oracle used by the witnesses of C8 and C10: one qualifying Arabic
post, an exhausted OpenAI oracle (every call errors out, so the thread
falls back to the hard-coded generic one), and both publishes
succeeding. -/
def w8oracle : MainOracle :=
  { messages := [⟨some (List.replicate 60 'م'), false, false⟩], choice := 0, resps := [],
    mediaOk := false, ts := "\n\n🕒 2026-01-01 00:00 UTC".data, sendAr := true, sendEn := true }

set_option maxRecDepth 40000 in
/-- Witness for C8: a run reaching both publishes with both succeeding
exits 0. -/
theorem claim8_exit_codes_witness :
    (mainRun ["k"] 10 w8oracle).publishes = [true, true] ∧
    (exitCode (mainRun ["k"] 10 w8oracle).success = 0 ↔ true = true ∧ true = true) :=
  ⟨by decide, claim8_exit_codes ["k"] 10 w8oracle true true (by decide)⟩

/-- The oracle of the C8 counterexample: same run, but the second publish
fails while the first succeeds. -/
def w8partial : MainOracle :=
  { messages := [⟨some (List.replicate 60 'م'), false, false⟩], choice := 0, resps := [],
    mediaOk := false, ts := "\n\n🕒 2026-01-01 00:00 UTC".data, sendAr := true, sendEn := false }

set_option maxRecDepth 40000 in
/-- Counterexample to C8 as stated: a partial success — the Arabic post
publish succeeds, the thread publish fails — makes `main` return `False`
and the process exit 1, not 0. -/
theorem claim8_partial_success_counterexample :
    (mainRun ["k"] 10 w8partial).publishes = [true, false] ∧
    exitCode (mainRun ["k"] 10 w8partial).success = 1 := by
  exact ⟨by decide, by decide⟩

/-- Claim C9, amended: in every run that reaches the publish stage the
media cleanup runs exactly once when a media file was downloaded (and
never otherwise), regardless of the publish outcomes; but a run that
aborts between the media download and the publish stage (the
no-Arabic-content abort of bot_advanced.py:742-744) deletes nothing and
leaves the downloaded file behind, so the cleanup is not unconditional as
the original claim states. -/
theorem claim9_media_cleanup (keys : List String) (minLen : Nat) (o : MainOracle)
    (h : (mainRun keys minLen o).publishes ≠ []) :
    ((mainRun keys minLen o).downloaded = true → (mainRun keys minLen o).deletes = 1) ∧
    ((mainRun keys minLen o).downloaded = false → (mainRun keys minLen o).deletes = 0) := by
  have hc := mainRun_cases keys minLen o
  unfold GoodOut at hc
  rcases hc with hl | hr
  · exact absurd hl h
  · constructor
    · intro hd
      rw [hr.2.2.1, hd]
      simp
    · intro hd
      rw [hr.2.2.1, hd]
      simp

/-- The oracle of the C9 witness: a qualifying Arabic post carrying a
photo, media download succeeding, the OpenAI oracle exhausted, and both
publishes attempted. -/
def w9oracle : MainOracle :=
  { messages := [⟨some (List.replicate 60 'م'), true, false⟩], choice := 0, resps := [],
    mediaOk := true, ts := "\n\n🕒 2026-01-01 00:00 UTC".data, sendAr := false, sendEn := false }

set_option maxRecDepth 40000 in
/-- Witness for C9: a run that downloads media and reaches the publish
stage deletes the file exactly once even though both publishes fail. -/
theorem claim9_media_cleanup_witness :
    (mainRun ["k"] 10 w9oracle).publishes ≠ [] ∧
    (mainRun ["k"] 10 w9oracle).downloaded = true ∧
    (mainRun ["k"] 10 w9oracle).deletes = 1 :=
  ⟨by decide, by decide,
    (claim9_media_cleanup ["k"] 10 w9oracle (by decide)).1 (by decide)⟩

/-- The AI post of the C9 counterexample: long enough (319 characters)
and ratio-valid (49 Arabic in 69 alphabetic characters) yet with fewer
than 50 Arabic characters in total. -/
def w9crafted : List Char :=
  List.replicate 49 'م' ++ List.replicate 20 'a' ++ List.replicate 250 '.'

/-- The oracle of the C9 counterexample: a Latin photo post, media
download succeeding, the Arabic translation failing twice, and the
generated Arabic post passing validation with fewer than 50 Arabic
characters, which triggers the abort of bot_advanced.py:742-744. -/
def w9leak : MainOracle :=
  { messages := [⟨some (List.replicate 60 'a'), true, false⟩], choice := 0,
    resps := [Resp.status 500, Resp.status 500, Resp.ok w9crafted],
    mediaOk := true, ts := "\n\n🕒 2026-01-01 00:00 UTC".data, sendAr := true, sendEn := true }

set_option maxRecDepth 40000 in
/-- Counterexample to C9 as stated: this run downloads the media file and
then aborts before any publish attempt, deleting nothing — the media
cleanup does not run in every run that downloads a file. -/
theorem claim9_media_leak_counterexample :
    (mainRun ["k"] 10 w9leak).downloaded = true ∧
    (mainRun ["k"] 10 w9leak).deletes = 0 ∧
    (mainRun ["k"] 10 w9leak).publishes = [] := by
  exact ⟨by decide, by decide, by decide⟩

/-- Claim C10: every run that reaches the publish stage hands the
publisher a non-empty tweet list (of at least 3 tweets): when thread
generation fails, the run substitutes the 3-tweet thread built around the
plain English translation, and when that translation also fails, the
fixed hard-coded 4-tweet generic thread — and still publishes. -/
theorem claim10_thread_fallback (keys : List String) (minLen : Nat) (o : MainOracle)
    (h : (mainRun keys minLen o).publishes ≠ []) :
    (mainRun keys minLen o).tweets ≠ [] ∧
    3 ≤ (mainRun keys minLen o).tweets.length ∧
    ((mainRun keys minLen o).tweetsSource = TwSrc.generic →
      (mainRun keys minLen o).tweets = genericThread) ∧
    ((mainRun keys minLen o).tweetsSource = TwSrc.fromTranslation →
      (mainRun keys minLen o).tweets.length = 3) := by
  have hc := mainRun_cases keys minLen o
  unfold GoodOut at hc
  rcases hc with hl | hr
  · exact absurd hl h
  · refine ⟨?_, hr.2.2.2.1, hr.2.2.2.2.2.1, hr.2.2.2.2.2.2⟩
    intro hcon
    have h3 := hr.2.2.2.1
    rw [hcon] at h3
    simp at h3

set_option maxRecDepth 40000 in
/-- Witness for C10: in a run where every OpenAI call fails, the thread
handed to the publisher is the hard-coded 4-tweet generic thread and the
publish stage still runs. -/
theorem claim10_thread_fallback_witness :
    (mainRun ["k"] 10 w8oracle).publishes ≠ [] ∧
    (mainRun ["k"] 10 w8oracle).tweetsSource = TwSrc.generic ∧
    (mainRun ["k"] 10 w8oracle).tweets = genericThread :=
  ⟨by decide, by decide,
    (claim10_thread_fallback ["k"] 10 w8oracle (by decide)).2.2.1 (by decide)⟩

set_option maxRecDepth 8192 in
/-- Counterexample to C3 as stated: on the 2-character input `"hi"`
(below the claimed ~50-character minimum) the transformer does not fail
immediately and does issue a network call — with one valid Arabic
response in the oracle it makes exactly one HTTP call and returns a
result. -/
theorem claim3_short_input_calls_api :
    ("hi".data).length < 50 ∧
    (generate_arabic_post ["k"] "hi".data
      ⟨[], [Resp.ok (List.replicate 301 'م')], 0, 0⟩).1.isSome = true ∧
    ((generate_arabic_post ["k"] "hi".data
      ⟨[], [Resp.ok (List.replicate 301 'م')], 0, 0⟩).2).calls = 1 := by
  refine ⟨by decide, by decide, by decide⟩

end TgBot
